import Mathlib

/-!
Verification of the real-time session-coordination core of the meet-v3
repository: in-memory socket/room state (`socket.state.ts`, `room.state.ts`),
the soft-reconnection lifecycle (`soft.reconnect.ts`), the Socket.IO room and
signaling handlers (`room.socket.ts`, `signaling.socket.ts`), the room
lifecycle helpers (`room.lifecycle.ts`) and the emoji reaction rate limiter
(`emoji-rate-limiter.ts`).

Modelling conventions, applied uniformly:
* JS `Map`s and plain objects used as dictionaries are embedded as Lean
  functions with a default value (`Option` for maps whose absence matters,
  `List` defaulting to `[]` where the source only ever reads
  `map.get(k) ?? []`).  Deleting a key whose value is an empty list is
  indistinguishable from storing the empty list for every operation the
  source performs, so both are modelled as the empty list.
* Wall-clock fields (`connectedAt`, `joinedRoomAt`, `lastActivity`,
  `createdAt`, `disconnectedAt`) and the media-state blob are carried by the
  source but never drive any of the control flow verified here; they are
  omitted from the record types.  `updateLastActivity` therefore has no
  observable effect in the model and is dropped at the call sites.
* Socket.IO emissions are recorded as an explicit event list; the delivery
  target (a single socket, or the room broadcast) is part of the event value.
* Timers (`setTimeout`) are modelled by exposing the timeout callback
  (`handleReconnectTimeout`) as an operation that may be invoked on a key;
  cancellation is record deletion, and the callback's own presence check
  makes a late firing a no-op, exactly as in the source.
-/

namespace MeetCore

/-- Room ids in the socket-state layer are typed `number | string`. -/
abbrev RoomId := Int ⊕ String

/-- JS truthiness of a `number | string` value: `0` and `""` are falsy. -/
def RoomId.truthy : RoomId → Bool
  | Sum.inl n => n != 0
  | Sum.inr s => s != ""

/-- String interpolation `${roomId}` of a `number | string` room id. -/
def RoomId.interp : RoomId → String
  | Sum.inl n => toString n
  | Sum.inr s => s

/-- Pointwise update of a function-embedded map. -/
def fset {α β : Type} [DecidableEq α] (f : α → β) (a : α) (b : β) : α → β :=
  fun x => if x = a then b else f x

@[simp] theorem fset_same {α β : Type} [DecidableEq α] (f : α → β) (a : α) (b : β) :
    fset f a b a = b := by
  simp [fset]

theorem fset_ne {α β : Type} [DecidableEq α] (f : α → β) (a : α) (b : β) {x : α}
    (h : x ≠ a) : fset f a b x = f x := by
  simp [fset, h]

/-- Pointwise update of a two-argument function-embedded map. -/
def fset2 {α β γ : Type} [DecidableEq α] [DecidableEq β]
    (f : α → β → γ) (a : α) (b : β) (c : γ) : α → β → γ :=
  fun x y => if x = a ∧ y = b then c else f x y

/--
`SocketState` from `socket.state.ts` (timestamps and the optional
`mediaState` blob omitted, see the file header).
-/
structure SocketState where
  socketId : String
  userId : Option Int
  guestId : Option String
  userName : Option String
  email : Option String
  roomId : Option RoomId
  isHost : Bool
  isGuest : Bool
  isAuthenticated : Bool
  deriving DecidableEq

/--
The three module-level stores of `socket.state.ts`: `sockets` (socket id →
session), `userToSockets` (user id or guest id → socket ids, multi-tab) and
`roomToSockets` (room id → socket ids in join order).
-/
structure SocketStore where
  sockets : String → Option SocketState
  userToSockets : (Int ⊕ String) → List String
  roomToSockets : RoomId → List String

def emptySocketStore : SocketStore :=
  { sockets := fun _ => none, userToSockets := fun _ => [], roomToSockets := fun _ => [] }

/-- `registerSocket`: store a fresh unauthenticated session under the id. -/
def freshSession (sid : String) : SocketState :=
  { socketId := sid, userId := none, guestId := none, userName := none,
    email := none, roomId := none, isHost := false, isGuest := false,
    isAuthenticated := false }

def registerSocket (st : SocketStore) (sid : String) : SocketStore :=
  { st with sockets := fset st.sockets sid (some (freshSession sid)) }

/-- JS `userId || guestId` followed by the `if (identifier)` truthiness test. -/
def jsIdOr (userId : Option Int) (guestId : Option String) : Option (Int ⊕ String) :=
  match userId with
  | some n =>
      if n ≠ 0 then some (Sum.inl n)
      else guestId.bind fun g => if g ≠ "" then some (Sum.inr g) else none
  | none => guestId.bind fun g => if g ≠ "" then some (Sum.inr g) else none

/-- `authenticateSocket`: attach identity and index the socket by user id. -/
def authenticateSocket (st : SocketStore) (sid : String) (userId : Option Int)
    (userName : String) (email : Option String) (isGuest : Bool := false)
    (guestId : Option String := none) : SocketStore :=
  match st.sockets sid with
  | none => st
  | some s =>
      let s' := { s with userId := userId, guestId := guestId,
                         userName := some userName, email := email,
                         isAuthenticated := true, isGuest := isGuest }
      let st' := { st with sockets := fset st.sockets sid (some s') }
      match jsIdOr userId guestId with
      | none => st'
      | some idf =>
          let uts := fset st'.userToSockets idf (st'.userToSockets idf ++ [sid])
          { st' with userToSockets := uts }

/--
`removeSocketFromRoom(socketId, roomId)`.  The second parameter is required
by the TypeScript signature, but one call site (the `leave-room` handler in
`room.socket.ts`) passes only one argument; the missing argument is the JS
value `undefined`, modelled here as `none`.  The guard
`state.roomId !== roomId` then always fails for a socket that is in a room.
-/
def removeSocketFromRoom (st : SocketStore) (sid : String) (roomId : Option RoomId) :
    SocketStore :=
  match st.sockets sid with
  | none => st
  | some s =>
      match s.roomId with
      | none => st
      | some r =>
          if some r ≠ roomId then st
          else
            let rts := fset st.roomToSockets r ((st.roomToSockets r).erase sid)
            let sks := fset st.sockets sid (some { s with roomId := none, isHost := false })
            { st with roomToSockets := rts, sockets := sks }

/-- `addSocketToRoom`: leave the previous room first, then join the new one. -/
def addSocketToRoom (st : SocketStore) (sid : String) (roomId : RoomId)
    (isHost : Bool := false) : SocketStore :=
  match st.sockets sid with
  | none => st
  | some s =>
      let st1 := match s.roomId with
        | some prev => removeSocketFromRoom st sid (some prev)
        | none => st
      match st1.sockets sid with
      | none => st1
      | some s1 =>
          let sks := fset st1.sockets sid (some { s1 with roomId := some roomId, isHost := isHost })
          let rts := fset st1.roomToSockets roomId (st1.roomToSockets roomId ++ [sid])
          { st1 with sockets := sks, roomToSockets := rts }

/-- `getSocket`. -/
def getSocket (st : SocketStore) (sid : String) : Option SocketState :=
  st.sockets sid

/-- `getSocketsInRoom`: resolve the room's socket ids, dropping stale ids. -/
def getSocketsInRoom (st : SocketStore) (roomId : RoomId) : List SocketState :=
  (st.roomToSockets roomId).filterMap st.sockets

/--
`removeSocket`: drop the user-index entry, leave the room (only when
`state.roomId` is *truthy* — the source tests `if (state.roomId)`), delete
the session, and return the session object.  Because the source returns the
very object `removeSocketFromRoom` has already mutated in place
(`state.roomId = null; state.isHost = false`), the returned state is the
post-removal one, not the prior state.  The model reproduces this aliasing
by re-reading the session after the room removal.
-/
def removeSocket (st : SocketStore) (sid : String) : SocketStore × Option SocketState :=
  match st.sockets sid with
  | none => (st, none)
  | some s =>
      let st1 := match s.userId with
        | some uid =>
            let uts := fset st.userToSockets (Sum.inl uid)
              ((st.userToSockets (Sum.inl uid)).erase sid)
            { st with userToSockets := uts }
        | none => st
      let st2 := match s.roomId with
        | some r => if r.truthy then removeSocketFromRoom st1 sid (some r) else st1
        | none => st1
      let ret := st2.sockets sid
      ({ st2 with sockets := fset st2.sockets sid none }, ret)

/-! ## Room state (`room.state.ts`) and participant state (`participant.state.ts`) -/

/-- `roomConfig.maxParticipants` from `socket.config.ts`. -/
def maxParticipants : Nat := 50

/--
`RoomState` from `room.state.ts` (creation timestamp and `lastActivity`
omitted).  The `participants` field is a JS `Set<string>` of usernames,
modelled as an insertion-ordered duplicate-free list.
-/
structure RoomRec where
  id : String
  title : String
  createdBy : String
  participants : List String
  isActive : Bool
  deriving DecidableEq

/-- The module-level `rooms` map of `room.state.ts`, keyed by room code. -/
structure RoomsStore where
  rooms : String → Option RoomRec

def emptyRoomsStore : RoomsStore := { rooms := fun _ => none }

/-- `createRoom`: get-or-create. -/
def createRoom (rs : RoomsStore) (roomId title createdBy : String) : RoomsStore × RoomRec :=
  match rs.rooms roomId with
  | some room => (rs, room)
  | none =>
      let room : RoomRec :=
        { id := roomId, title := title, createdBy := createdBy,
          participants := [], isActive := true }
      ({ rooms := fset rs.rooms roomId (some room) }, room)

/-- `roomExists`. -/
def roomExists (rs : RoomsStore) (roomId : String) : Bool :=
  (rs.rooms roomId).isSome

/-- `getRoomParticipantCount`. -/
def getRoomParticipantCount (rs : RoomsStore) (roomId : String) : Nat :=
  match rs.rooms roomId with
  | some room => room.participants.length
  | none => 0

/-- JS `Set.add`: no-op when already present, else append. -/
def setAdd (l : List String) (x : String) : List String :=
  if x ∈ l then l else l ++ [x]

/-- `addParticipantToRoom`: reject when at or above `maxParticipants`. -/
def addParticipantToRoom (rs : RoomsStore) (roomId username : String) :
    RoomsStore × Bool :=
  match rs.rooms roomId with
  | none => (rs, false)
  | some room =>
      if maxParticipants ≤ room.participants.length then (rs, false)
      else
        let room' := { room with participants := setAdd room.participants username }
        ({ rooms := fset rs.rooms roomId (some room') }, true)

/--
`ParticipantState` from `participant.state.ts` (timestamps, media state and
hand-raise flag omitted — none of the verified claims read them).
-/
structure ParticipantRec where
  username : String
  socketId : String
  roomId : String
  userId : Option Int
  isHost : Bool
  deriving DecidableEq

/--
The nested `participants` map of `participant.state.ts`
(`roomId → username → state`), inner maps insertion-ordered.
-/
structure ParticipantsStore where
  byRoom : String → List (String × ParticipantRec)

def emptyParticipantsStore : ParticipantsStore := { byRoom := fun _ => [] }

/-- JS `Map.set`: replace in place when the key exists, else append. -/
def mapSet (l : List (String × ParticipantRec)) (k : String) (v : ParticipantRec) :
    List (String × ParticipantRec) :=
  if l.any (fun kv => kv.1 == k) then
    l.map (fun kv => if kv.1 == k then (k, v) else kv)
  else l ++ [(k, v)]

/-- `addParticipant` from `participant.state.ts`. -/
def addParticipant (ps : ParticipantsStore) (roomId username socketId : String)
    (isHost : Bool) (userId : Option Int) : ParticipantsStore × ParticipantRec :=
  let rec0 : ParticipantRec :=
    { username := username, socketId := socketId, roomId := roomId,
      userId := userId, isHost := isHost }
  ({ byRoom := fset ps.byRoom roomId (mapSet (ps.byRoom roomId) username rec0) }, rec0)

/-- The two stores touched by `room.lifecycle.ts`. -/
structure LifecycleState where
  rooms : RoomsStore
  parts : ParticipantsStore

/--
`handleParticipantJoin` from `room.lifecycle.ts`: get-or-create the room,
reject when the room is at capacity (before any mutation), otherwise add the
participant to both stores.  The function emits no socket events.
-/
def handleParticipantJoin (ls : LifecycleState) (roomId username socketId : String)
    (isHost : Bool) (userId : Option Int) : LifecycleState × Bool :=
  let ls1 :=
    if roomExists ls.rooms roomId then ls
    else { ls with rooms := (createRoom ls.rooms roomId "Meeting" username).1 }
  if maxParticipants ≤ getRoomParticipantCount ls1.rooms roomId then (ls1, false)
  else
    let rooms2 := (addParticipantToRoom ls1.rooms roomId username).1
    let parts2 := (addParticipant ls1.parts roomId username socketId isHost userId).1
    ({ rooms := rooms2, parts := parts2 }, true)

/-! ## Emoji reaction rate limiter (`emoji-rate-limiter.ts`) -/

/-- `MAX_REACTIONS`. -/
def MAX_REACTIONS : Nat := 3

/-- `WINDOW_MS`. -/
def WINDOW_MS : Int := 10000

/--
The `userHistory` store of `EmojiRateLimiter`
(`Map<string, {[roomId: number]: ReactionRecord[]}>`).  A missing user entry
or room entry reads as the empty list, exactly as the source's
get-or-create accesses behave, so both levels are embedded as total
functions defaulting to `[]`.
-/
structure EmojiRateLimiter where
  userHistory : String → Int → List Int

def emptyLimiter : EmojiRateLimiter := { userHistory := fun _ _ => [] }

/--
`EmojiRateLimiter.canReact`: prune timestamps outside the sliding window,
admit and record while strictly under `MAX_REACTIONS`, otherwise reject
without recording (on rejection the source also leaves the stored,
unpruned list in place).
-/
def canReact (l : EmojiRateLimiter) (userId : String) (roomId : Int) (now : Int) :
    Bool × EmojiRateLimiter :=
  let reactions := l.userHistory userId roomId
  let validReactions := reactions.filter (fun t => now - t < WINDOW_MS)
  if validReactions.length < MAX_REACTIONS then
    (true, { userHistory := fset2 l.userHistory userId roomId (validReactions ++ [now]) })
  else
    (false, l)

/-! ## JS `parseInt(•, 10)` -/

/-- Digit-prefix value: `none` when the string has no leading decimal digit. -/
def digitsVal (cs : List Char) : Option Nat :=
  let ds := cs.takeWhile Char.isDigit
  if ds.isEmpty then none
  else some (ds.foldl (fun a c => a * 10 + (c.toNat - 48)) 0)

/--
JS `parseInt(s, 10)`: skip leading whitespace, accept an optional sign, read
the longest decimal-digit prefix; `NaN` (here `none`) when no digit follows.
Trailing garbage is ignored.
-/
def jsParseInt (s : String) : Option Int :=
  let cs := s.data.dropWhile fun c => c = ' ' ∨ c = '\t' ∨ c = '\n' ∨ c = '\r'
  match cs with
  | '-' :: rest => (digitsVal rest).map fun n => -(n : Int)
  | '+' :: rest => (digitsVal rest).map fun n => (n : Int)
  | rest => (digitsVal rest).map fun n => (n : Int)

/-! ## Events, server state, soft reconnection (`soft.reconnect.ts`) -/

/-- The participant projection emitted by the join/rejoin handlers. -/
structure Participant where
  userId : Option Int
  userName : Option String
  isHost : Bool
  deriving DecidableEq

def toParticipant (s : SocketState) : Participant :=
  { userId := s.userId, userName := s.userName, isHost := s.isHost }

/--
Socket.IO emissions of the verified handlers.  Constructors carrying a
`sid`/`toSid` are `socket.emit`/`io.to(socketId)` deliveries to that single
socket; `userJoined` and `userReconnected` are `socket.broadcast.to(room)`
(room members except `exceptSid`); the remaining room events are
`io.to(room)` broadcasts to the whole room.
-/
inductive Event where
  | errorEvt (sid : String) (etype : String)
  | roomJoined (sid : String) (roomId : RoomId) (participants : List Participant) (isHost : Bool)
  | userJoined (roomId : RoomId) (exceptSid : String) (userId : Option Int) (userName : String) (isHost : Bool)
  | syncPeers (sid : String) (peers : List Participant)
  | roomRejoined (sid : String) (roomId : RoomId) (participants : List Participant)
  | userReconnected (roomId : RoomId) (exceptSid : String) (userId : Option Int) (userName : String)
  | reconnectGrace (roomId : RoomId) (userId : Option Int) (userName : Option String)
  | userLeft (roomId : RoomId) (userId : Option Int) (userName : Option String)
  | hostPromoted (roomId : RoomId) (newHostUserId : Option Int) (newHostName : Option String)
  | roomEnded (roomId : RoomId) (reason : String)
  | offerForward (toSid : String) (fromUserId : Option Int) (fromUserName : String) (payload : String)
  | answerForward (toSid : String) (fromUserId : Option Int) (fromUserName : String) (payload : String)
  | iceForward (toSid : String) (fromUserId : Option Int) (fromUserName : String) (payload : String)
  deriving DecidableEq

/--
`PendingReconnection` from `soft.reconnect.ts` (`disconnectedAt` and the
timer handle omitted; the timer's firing is modelled by invoking
`handleReconnectTimeout` on the record's key).
-/
structure PendingRec where
  userId : Option Int
  userName : Option String
  email : Option String
  roomId : RoomId
  deriving DecidableEq

/-- String interpolation of the user id slot of a pending-reconnection key
(`${userId}`; JS renders `null` as `"null"`).  `room.socket.ts` only ever
passes the numeric-or-null `userId` field here, so the id is `Option Int`. -/
def optIdStr : Option Int → String
  | some n => toString n
  | none => "null"

/-- The `` `${roomId}:${userId}` `` key of the pending-reconnections map. -/
def pendingKey (roomId : RoomId) (userId : Option Int) : String :=
  RoomId.interp roomId ++ ":" ++ optIdStr userId

/--
Whole-server state: the socket-state stores, the pending-reconnections map
of `soft.reconnect.ts`, and the `rooms` map of `room.state.ts` (which the
socket handlers never reference — it is carried to make that fact provable).
-/
structure ServerState where
  store : SocketStore
  pending : String → Option PendingRec
  rooms : RoomsStore

/-- `markForReconnect`: replace any existing record for the key, arm the
grace timer, and notify the room. -/
def markForReconnect (st : ServerState) (userId : Option Int) (userName : Option String)
    (email : Option String) (roomId : RoomId) : ServerState × List Event :=
  let key := pendingKey roomId userId
  let rec0 : PendingRec := { userId := userId, userName := userName, email := email, roomId := roomId }
  ({ st with pending := fset st.pending key (some rec0) },
   [Event.reconnectGrace roomId userId userName])

/-- `hasPendingReconnection`. -/
def hasPendingReconnection (st : ServerState) (userId : Option Int) (roomId : RoomId) : Bool :=
  (st.pending (pendingKey roomId userId)).isSome

/--
`attemptReconnect`: when a pending record exists, clear it and re-add the
new socket to the room.  The source's comment says "Preserve host status in
state", but the call is `addSocketToRoom(socket.id, roomId, false)` — the
third argument is the literal `false`, so the rejoined session is stored
with `isHost = false`.  The model reproduces the call as written.
-/
def attemptReconnect (st : ServerState) (sid : String) (userId : Option Int)
    (roomId : RoomId) (userName : String) : ServerState × List Event × Bool :=
  let key := pendingKey roomId userId
  match st.pending key with
  | none => (st, [], false)
  | some _ =>
      let st1 : ServerState := { st with pending := fset st.pending key none }
      let store2 := addSocketToRoom st1.store sid roomId false
      let st2 : ServerState := { st1 with store := store2 }
      let participants := (getSocketsInRoom store2 roomId).map toParticipant
      (st2,
       [Event.roomRejoined sid roomId participants,
        Event.userReconnected roomId sid userId userName],
       true)

/-- `handleReconnectTimeout`: fire the grace timer for a key; a no-op when
the record was already cleared (late firing after cancellation). -/
def handleReconnectTimeout (st : ServerState) (key : String) (roomId : RoomId) :
    ServerState × List Event :=
  match st.pending key with
  | none => (st, [])
  | some p =>
      ({ st with pending := fset st.pending key none },
       [Event.userLeft roomId p.userId p.userName])

/-! ## Room handlers (`room.socket.ts`) -/

/-- `socket.data.user` as attached by the socket auth middleware. -/
structure UserData where
  id : Option Int
  name : String
  email : Option String
  isGuest : Bool
  deriving DecidableEq

/-- `data.roomId` of a join request arrives either as a number or a string. -/
inductive RoomIdInput where
  | num (n : Int)
  | str (s : String)
  deriving DecidableEq

/-- The fresh-join tail of the `join-room` handler: add the socket to the
room, send the participant list to the joiner, announce the joiner to the
others, and — when other participants exist — instruct the joiner (and only
the joiner) to initiate peer connections toward them. -/
def freshJoin (st : ServerState) (sid : String) (user : UserData) (roomId : RoomId)
    (isHost : Bool) : ServerState × List Event :=
  let store1 := addSocketToRoom st.store sid roomId isHost
  let st1 : ServerState := { st with store := store1 }
  let participants := (getSocketsInRoom store1 roomId).map toParticipant
  let baseEvents := [Event.roomJoined sid roomId participants isHost,
                     Event.userJoined roomId sid user.id user.name isHost]
  if 1 < participants.length then
    let existingPeers := participants.filter fun p => p.userId != user.id
    (st1, baseEvents ++ [Event.syncPeers sid existingPeers])
  else
    (st1, baseEvents)

/--
The `join-room` handler of `room.socket.ts`.  `data.roomId` is coerced with
`parseInt` when it is a string; `!roomId || isNaN(roomId)` rejects `NaN`
and `0` with an `INVALID_ROOM_ID` error before touching any state.  The
results of the two external async checks (`validateRoomAccess`,
`isRoomHost`, both database-backed) are passed in as oracle parameters.
-/
def joinRoomHandler (st : ServerState) (sid : String) (user : UserData)
    (dataRoomId : RoomIdInput) (accessValid : Bool) (isHostFromDb : Bool) :
    ServerState × List Event :=
  let parsed : Option Int :=
    match dataRoomId with
    | RoomIdInput.str s => jsParseInt s
    | RoomIdInput.num n => some n
  match parsed with
  | none => (st, [Event.errorEvt sid "INVALID_ROOM_ID"])
  | some n =>
      if n = 0 then (st, [Event.errorEvt sid "INVALID_ROOM_ID"])
      else if !accessValid then (st, [Event.errorEvt sid "ROOM_ACCESS_DENIED"])
      else
        let roomId : RoomId := Sum.inl n
        if hasPendingReconnection st user.id roomId then
          let res := attemptReconnect st sid user.id roomId user.name
          if res.2.2 then (res.1, res.2.1)
          else freshJoin res.1 sid user roomId isHostFromDb
        else
          freshJoin st sid user roomId isHostFromDb

/--
The `leave-room` handler of `room.socket.ts`.  The source calls
`removeSocketFromRoom(socket.id)` without the required `roomId` argument
(the argument is `undefined`, modelled as `none`), then — when the leaver
was host — promotes `getSocketsInRoom(roomId)[0]` or, when that list is
empty, cleans the room up and emits `room-ended`; a non-host leaver is
announced with `user-left`.
-/
def leaveRoomHandler (st : ServerState) (sid : String) (user : UserData)
    (dataRoomId : RoomId) : ServerState × List Event :=
  match (getSocketsInRoom st.store dataRoomId).find? (fun s => s.socketId == sid) with
  | none => (st, [])
  | some socketState =>
      let wasHost := socketState.isHost
      let store1 := removeSocketFromRoom st.store sid none
      let st1 : ServerState := { st with store := store1 }
      if wasHost then
        let remaining := getSocketsInRoom store1 dataRoomId
        match remaining with
        | [] => (st1, [Event.roomEnded dataRoomId "Host left the room"])
        | newHost :: _ =>
            (st1, [Event.hostPromoted dataRoomId newHost.userId newHost.userName])
      else
        (st1, [Event.userLeft dataRoomId user.id (some user.name)])

/--
The `disconnect` handler of `room.socket.ts`.  It first runs
`removeSocket(socket.id)` and then tests `removedState && removedState.roomId`
(a truthiness test) before marking the user for soft reconnection and, for a
sole host, ending the room.  Because `removeSocket` returns the session
object *after* `removeSocketFromRoom` has reset `roomId` to `null`, the
guard decides on the post-removal value.
-/
def disconnectHandler (st : ServerState) (sid : String) : ServerState × List Event :=
  let res := removeSocket st.store sid
  let st1 : ServerState := { st with store := res.1 }
  match res.2 with
  | none => (st1, [])
  | some rs =>
      match rs.roomId with
      | none => (st1, [])
      | some r =>
          if !r.truthy then (st1, [])
          else
            let marked := markForReconnect st1 rs.userId rs.userName rs.email r
            if rs.isHost then
              let remaining := getSocketsInRoom marked.1.store r
              if remaining.length = 0 then
                (marked.1, marked.2 ++ [Event.roomEnded r "Host left the room"])
              else (marked.1, marked.2)
            else (marked.1, marked.2)

/-! ## Signaling handlers (`signaling.socket.ts`) -/

/-- `data.to` of a signaling message: matched against the session's
`userId` (number) or `userName` (string) with strict equality. -/
def matchesTarget (s : SocketState) (target : Int ⊕ String) : Bool :=
  match target with
  | Sum.inl n => s.userId == some n
  | Sum.inr t => s.userName == some t

/-- Shared body of the three signaling handlers: drop silently when the
sender is not in a room or the target is not a live session in the sender's
current room, else forward the payload verbatim to the target's socket. -/
def relaySignal (st : ServerState) (sid : String) (user : UserData)
    (target : Int ⊕ String) (payload : String)
    (mk : String → Option Int → String → String → Event) : ServerState × List Event :=
  match st.store.sockets sid with
  | none => (st, [])
  | some fromState =>
      match fromState.roomId with
      | none => (st, [])
      | some r =>
          if !r.truthy then (st, [])
          else
            match (getSocketsInRoom st.store r).find? (fun s => matchesTarget s target) with
            | none => (st, [])
            | some targetSocket =>
                (st, [mk targetSocket.socketId user.id user.name payload])

/-- The `offer` handler. -/
def offerHandler (st : ServerState) (sid : String) (user : UserData)
    (target : Int ⊕ String) (payload : String) : ServerState × List Event :=
  relaySignal st sid user target payload Event.offerForward

/-- The `answer` handler. -/
def answerHandler (st : ServerState) (sid : String) (user : UserData)
    (target : Int ⊕ String) (payload : String) : ServerState × List Event :=
  relaySignal st sid user target payload Event.answerForward

/-- The `icecandidate` handler. -/
def iceHandler (st : ServerState) (sid : String) (user : UserData)
    (target : Int ⊕ String) (payload : String) : ServerState × List Event :=
  relaySignal st sid user target payload Event.iceForward

/-! ## Operation traces over the socket-state stores -/

/-- The four index-mutating operations of `socket.state.ts` named by the
bidirectional-integrity claim. -/
inductive Op where
  | register (sid : String)
  | addToRoom (sid : String) (roomId : RoomId) (isHost : Bool)
  | removeFromRoom (sid : String) (roomId : RoomId)
  | removeSock (sid : String)
  deriving DecidableEq

def applyOp (st : SocketStore) : Op → SocketStore
  | Op.register sid => registerSocket st sid
  | Op.addToRoom sid r h => addSocketToRoom st sid r h
  | Op.removeFromRoom sid r => removeSocketFromRoom st sid (some r)
  | Op.removeSock sid => (removeSocket st sid).1

def runOps (st : SocketStore) : List Op → SocketStore
  | [] => st
  | op :: rest => runOps (applyOp st op) rest

/-- The connection ids passed to the `register` operations of a trace. -/
def regIds : List Op → List String
  | [] => []
  | Op.register sid :: rest => sid :: regIds rest
  | _ :: rest => regIds rest

/-- A session's `roomId` is `r` exactly when its id is listed in room `r`. -/
def RoomIndexAgree (st : SocketStore) : Prop :=
  ∀ sid s, st.sockets sid = some s →
    ∀ r : RoomId, s.roomId = some r ↔ sid ∈ st.roomToSockets r

/-- No room's member list mentions a socket id twice. -/
def RoomListsNodup (st : SocketStore) : Prop :=
  ∀ r : RoomId, (st.roomToSockets r).Nodup

/-- No socket id is listed in two different rooms. -/
def AtMostOneRoom (st : SocketStore) : Prop :=
  ∀ sid r r', sid ∈ st.roomToSockets r → sid ∈ st.roomToSockets r' → r = r'

def StoreInv (st : SocketStore) : Prop :=
  RoomIndexAgree st ∧ RoomListsNodup st ∧ AtMostOneRoom st

/-- Every session id and every listed id comes from the id pool `R`. -/
def Bounded (st : SocketStore) (R : List String) : Prop :=
  (∀ sid, (st.sockets sid).isSome → sid ∈ R) ∧
  (∀ r sid, sid ∈ st.roomToSockets r → sid ∈ R)

def InvR (st : SocketStore) (R : List String) : Prop := StoreInv st ∧ Bounded st R

/-- The consistency property C9 states: the session index and the
room-membership index agree, and a session is listed in at most one room. -/
def IndexConsistent (st : SocketStore) : Prop :=
  (∀ sid s, st.sockets sid = some s →
    ∀ r : RoomId, s.roomId = some r ↔ sid ∈ st.roomToSockets r) ∧
  (∀ sid s r r', st.sockets sid = some s →
    sid ∈ st.roomToSockets r → sid ∈ st.roomToSockets r' → r = r')

theorem indexConsistent_of_storeInv {st : SocketStore} (h : StoreInv st) :
    IndexConsistent st := by
  refine ⟨h.1, fun sid s r r' hs h1 h2 => ?_⟩
  have hr := (h.1 sid s hs r).mpr h1
  have hr' := (h.1 sid s hs r').mpr h2
  rw [hr] at hr'
  exact Option.some_injective _ hr'

theorem invR_empty (R : List String) : InvR emptySocketStore R := by
  refine ⟨⟨fun sid s hs r => ?_, fun r => ?_, fun sid r r' h1 h2 => ?_⟩,
         fun sid hs => ?_, fun r sid hs => ?_⟩ <;>
    simp_all [emptySocketStore]

theorem removeFromRoom_sockets {st : SocketStore} {sid : String} {s : SocketState}
    {r : RoomId} (hs : st.sockets sid = some s) (hr : s.roomId = some r) :
    (removeSocketFromRoom st sid (some r)).sockets
      = fset st.sockets sid (some { s with roomId := none, isHost := false }) := by
  simp [removeSocketFromRoom, hs, hr]

theorem removeFromRoom_rooms {st : SocketStore} {sid : String} {s : SocketState}
    {r : RoomId} (hs : st.sockets sid = some s) (hr : s.roomId = some r) :
    (removeSocketFromRoom st sid (some r)).roomToSockets
      = fset st.roomToSockets r ((st.roomToSockets r).erase sid) := by
  simp [removeSocketFromRoom, hs, hr]

theorem invR_removeFromRoom {st : SocketStore} {R : List String} (h : InvR st R)
    (sid : String) (ro : Option RoomId) : InvR (removeSocketFromRoom st sid ro) R := by
  obtain ⟨⟨hAgree, hNodup, hOne⟩, hBs, hBr⟩ := h
  rcases hs : st.sockets sid with _ | s
  · simpa [removeSocketFromRoom, hs] using
      ⟨⟨hAgree, hNodup, hOne⟩, hBs, hBr⟩
  rcases hr : s.roomId with _ | r
  · simpa [removeSocketFromRoom, hs, hr] using
      ⟨⟨hAgree, hNodup, hOne⟩, hBs, hBr⟩
  by_cases hro : some r = ro
  case neg =>
    simpa [removeSocketFromRoom, hs, hr, hro] using
      ⟨⟨hAgree, hNodup, hOne⟩, hBs, hBr⟩
  case pos =>
  subst hro
  have hSock := removeFromRoom_sockets hs hr
  have hRooms := removeFromRoom_rooms hs hr
  refine ⟨⟨?_, ?_, ?_⟩, ?_, ?_⟩
  · intro sid' s' hs' r'
    rw [hSock] at hs'
    rw [hRooms]
    by_cases hsid : sid' = sid
    · subst hsid
      rw [fset_same] at hs'
      injection hs' with hs'
      subst hs'
      constructor
      · intro habs; simp at habs
      · intro hmem
        exfalso
        by_cases hrr : r' = r
        · subst hrr
          rw [fset_same] at hmem
          exact (((hNodup r').mem_erase_iff).mp hmem).1 rfl
        · rw [fset_ne _ _ _ hrr] at hmem
          have hmp := (hAgree sid' s hs r').mpr hmem
          rw [hr] at hmp
          exact hrr (Option.some_injective _ hmp).symm
    · rw [fset_ne _ _ _ hsid] at hs'
      have base := hAgree sid' s' hs' r'
      by_cases hrr : r' = r
      · subst hrr
        rw [fset_same, base]
        exact (List.mem_erase_of_ne hsid).symm
      · rw [fset_ne _ _ _ hrr]
        exact base
  · intro r'
    rw [hRooms]
    by_cases hrr : r' = r
    · subst hrr; rw [fset_same]; exact (hNodup r').erase sid
    · rw [fset_ne _ _ _ hrr]; exact hNodup r'
  · intro x r1 r2 h1 h2
    rw [hRooms] at h1 h2
    have h1' : x ∈ st.roomToSockets r1 := by
      by_cases hrr : r1 = r
      · subst hrr; rw [fset_same] at h1; exact List.erase_subset _ _ h1
      · rwa [fset_ne _ _ _ hrr] at h1
    have h2' : x ∈ st.roomToSockets r2 := by
      by_cases hrr : r2 = r
      · subst hrr; rw [fset_same] at h2; exact List.erase_subset _ _ h2
      · rwa [fset_ne _ _ _ hrr] at h2
    exact hOne x r1 r2 h1' h2'
  · intro sid' hc
    rw [hSock] at hc
    by_cases hsid : sid' = sid
    · subst hsid; exact hBs sid' (by simp [hs])
    · rw [fset_ne _ _ _ hsid] at hc; exact hBs sid' hc
  · intro r' x hx
    rw [hRooms] at hx
    by_cases hrr : r' = r
    · subst hrr; rw [fset_same] at hx; exact hBr r' x (List.erase_subset _ _ hx)
    · rw [fset_ne _ _ _ hrr] at hx; exact hBr r' x hx

theorem nodup_append_singleton {l : List String} {a : String} (h : l.Nodup) (ha : a ∉ l) :
    (l ++ [a]).Nodup := by
  simp [List.nodup_append, h, ha]

theorem invR_joinUpdate {st1 : SocketStore} {R : List String} (h : InvR st1 R)
    {sid : String} {s1 : SocketState} (hs1 : st1.sockets sid = some s1)
    (hnone : s1.roomId = none) (r : RoomId) (hFlag : Bool) {st2 : SocketStore}
    (hSock : st2.sockets
      = fset st1.sockets sid (some { s1 with roomId := some r, isHost := hFlag }))
    (hRooms : st2.roomToSockets
      = fset st1.roomToSockets r (st1.roomToSockets r ++ [sid])) :
    InvR st2 R := by
  obtain ⟨⟨hA, hN, hO⟩, hBs, hBr⟩ := h
  have hNotMem : ∀ r'', sid ∉ st1.roomToSockets r'' := by
    intro r'' hm
    have := (hA sid s1 hs1 r'').mpr hm
    rw [hnone] at this
    exact Option.noConfusion this
  have key : ∀ x ri, x ∈ st2.roomToSockets ri →
      x ∈ st1.roomToSockets ri ∨ (ri = r ∧ x = sid) := by
    intro x ri hm
    rw [hRooms] at hm
    by_cases hrr : ri = r
    · subst hrr
      rw [fset_same] at hm
      rcases List.mem_append.mp hm with hm | hm
      · exact Or.inl hm
      · exact Or.inr ⟨rfl, by simpa using hm⟩
    · rw [fset_ne _ _ _ hrr] at hm
      exact Or.inl hm
  refine ⟨⟨?_, ?_, ?_⟩, ?_, ?_⟩
  · intro sid' s' hs' r'
    rw [hSock] at hs'
    rw [hRooms]
    by_cases hsid : sid' = sid
    · subst hsid
      rw [fset_same] at hs'
      injection hs' with hs'
      subst hs'
      by_cases hrr : r' = r
      · subst hrr
        rw [fset_same]
        simp
      · rw [fset_ne _ _ _ hrr]
        constructor
        · intro he
          simp only [] at he
          exact absurd (Option.some_injective _ he).symm hrr
        · intro hmem
          exact absurd hmem (hNotMem r')
    · rw [fset_ne _ _ _ hsid] at hs'
      have base := hA sid' s' hs' r'
      by_cases hrr : r' = r
      · subst hrr
        rw [fset_same, base]
        simp [hsid]
      · rw [fset_ne _ _ _ hrr]
        exact base
  · intro r'
    rw [hRooms]
    by_cases hrr : r' = r
    · subst hrr
      rw [fset_same]
      exact nodup_append_singleton (hN r') (hNotMem r')
    · rw [fset_ne _ _ _ hrr]
      exact hN r'
  · intro x r1 r2 h1 h2
    rcases key x r1 h1 with h1' | ⟨he1, hx1⟩
    · rcases key x r2 h2 with h2' | ⟨he2, hx2⟩
      · exact hO x r1 r2 h1' h2'
      · subst hx2
        exact absurd h1' (hNotMem r1)
    · rcases key x r2 h2 with h2' | ⟨he2, _⟩
      · subst hx1
        exact absurd h2' (hNotMem r2)
      · rw [he1, he2]
  · intro sid' hc
    rw [hSock] at hc
    by_cases hsid : sid' = sid
    · subst hsid
      exact hBs sid' (by simp [hs1])
    · rw [fset_ne _ _ _ hsid] at hc
      exact hBs sid' hc
  · intro r' x hx
    rcases key x r' hx with hx' | ⟨_, hx'⟩
    · exact hBr r' x hx'
    · subst hx'
      exact hBs x (by simp [hs1])

theorem invR_addToRoom {st : SocketStore} {R : List String} (h : InvR st R)
    (sid : String) (r : RoomId) (hFlag : Bool) :
    InvR (addSocketToRoom st sid r hFlag) R := by
  rcases hs : st.sockets sid with _ | s
  · simpa [addSocketToRoom, hs] using h
  rcases hprev : s.roomId with _ | prev
  · have hSock : (addSocketToRoom st sid r hFlag).sockets
        = fset st.sockets sid (some { s with roomId := some r, isHost := hFlag }) := by
      simp [addSocketToRoom, hs, hprev]
    have hRooms : (addSocketToRoom st sid r hFlag).roomToSockets
        = fset st.roomToSockets r (st.roomToSockets r ++ [sid]) := by
      simp [addSocketToRoom, hs, hprev]
    exact invR_joinUpdate h hs hprev r hFlag hSock hRooms
  · have hmid := invR_removeFromRoom h sid (some prev)
    have hs1 : (removeSocketFromRoom st sid (some prev)).sockets sid
        = some { s with roomId := none, isHost := false } := by
      rw [removeFromRoom_sockets hs hprev]
      exact fset_same _ _ _
    have hSock : (addSocketToRoom st sid r hFlag).sockets
        = fset (removeSocketFromRoom st sid (some prev)).sockets sid
            (some { s with roomId := some r, isHost := hFlag }) := by
      simp [addSocketToRoom, hs, hprev, hs1]
    have hRooms : (addSocketToRoom st sid r hFlag).roomToSockets
        = fset (removeSocketFromRoom st sid (some prev)).roomToSockets r
            ((removeSocketFromRoom st sid (some prev)).roomToSockets r ++ [sid]) := by
      simp [addSocketToRoom, hs, hprev, hs1]
    exact invR_joinUpdate hmid hs1 rfl r hFlag hSock hRooms

theorem invR_userToSockets {st : SocketStore} {R : List String} (h : InvR st R)
    (uts : (Int ⊕ String) → List String) :
    InvR { st with userToSockets := uts } R := by
  obtain ⟨⟨hA, hN, hO⟩, hBs, hBr⟩ := h
  exact ⟨⟨hA, hN, hO⟩, hBs, hBr⟩

theorem invR_deleteSession {st : SocketStore} {R : List String} (h : InvR st R)
    (sid : String) :
    InvR { st with sockets := fset st.sockets sid none } R := by
  obtain ⟨⟨hA, hN, hO⟩, hBs, hBr⟩ := h
  refine ⟨⟨?_, hN, hO⟩, ?_, hBr⟩
  · intro sid' s' hs' r'
    by_cases hsid : sid' = sid
    · subst hsid
      rw [show ({ st with sockets := fset st.sockets sid' none } : SocketStore).sockets
            = fset st.sockets sid' none from rfl, fset_same] at hs'
      exact Option.noConfusion hs'
    · rw [show ({ st with sockets := fset st.sockets sid none } : SocketStore).sockets
            = fset st.sockets sid none from rfl, fset_ne _ _ _ hsid] at hs'
      exact hA sid' s' hs' r'
  · intro sid' hc
    by_cases hsid : sid' = sid
    · subst hsid
      rw [show ({ st with sockets := fset st.sockets sid' none } : SocketStore).sockets
            = fset st.sockets sid' none from rfl, fset_same] at hc
      exact absurd hc (by simp)
    · rw [show ({ st with sockets := fset st.sockets sid none } : SocketStore).sockets
            = fset st.sockets sid none from rfl, fset_ne _ _ _ hsid] at hc
      exact hBs sid' hc

theorem invR_removeSock {st : SocketStore} {R : List String} (h : InvR st R)
    (sid : String) : InvR (removeSocket st sid).1 R := by
  rcases hs : st.sockets sid with _ | s
  · simpa [removeSocket, hs] using h
  simp only [removeSocket, hs]
  apply invR_deleteSession
  have h1 : InvR (match s.userId with
      | some uid =>
          let uts := fset st.userToSockets (Sum.inl uid)
            ((st.userToSockets (Sum.inl uid)).erase sid)
          { st with userToSockets := uts }
      | none => st) R := by
    rcases s.userId with _ | uid
    · exact h
    · exact invR_userToSockets h _
  rcases hr : s.roomId with _ | r
  · simpa [hr] using h1
  · simp only [hr]
    by_cases ht : r.truthy
    · simp only [ht, if_true]
      exact invR_removeFromRoom h1 sid (some r)
    · simp only [ht, if_false]
      exact h1

theorem invR_register {st : SocketStore} {R : List String} (h : InvR st R)
    {sid : String} (hfresh : sid ∉ R) :
    InvR (registerSocket st sid) (sid :: R) := by
  obtain ⟨⟨hA, hN, hO⟩, hBs, hBr⟩ := h
  have hnot : ∀ r, sid ∉ st.roomToSockets r := fun r hm => hfresh (hBr r sid hm)
  refine ⟨⟨?_, hN, hO⟩, ?_, ?_⟩
  · intro sid' s' hs' r'
    by_cases hsid : sid' = sid
    · subst hsid
      rw [show (registerSocket st sid').sockets
            = fset st.sockets sid' (some (freshSession sid')) from rfl, fset_same] at hs'
      injection hs' with hs'
      subst hs'
      constructor
      · intro he
        exact Option.noConfusion he
      · intro hmem
        exact absurd hmem (hnot r')
    · rw [show (registerSocket st sid).sockets
            = fset st.sockets sid (some (freshSession sid)) from rfl,
          fset_ne _ _ _ hsid] at hs'
      exact hA sid' s' hs' r'
  · intro sid' hc
    by_cases hsid : sid' = sid
    · subst hsid
      exact List.mem_cons_self _ _
    · rw [show (registerSocket st sid).sockets
            = fset st.sockets sid (some (freshSession sid)) from rfl,
          fset_ne _ _ _ hsid] at hc
      exact List.mem_cons_of_mem _ (hBs sid' hc)
  · intro r' x hx
    exact List.mem_cons_of_mem _ (hBr r' x hx)

theorem invR_runOps : ∀ (ops : List Op) (st : SocketStore) (R : List String),
    InvR st R → (regIds ops).Nodup → (∀ x ∈ regIds ops, x ∉ R) →
    ∃ R', InvR (runOps st ops) R' := by
  intro ops
  induction ops with
  | nil => exact fun st R h _ _ => ⟨R, h⟩
  | cons op rest ih =>
      intro st R h hnd hdisj
      cases op with
      | register sid =>
          have hnd' : (regIds rest).Nodup := (List.nodup_cons.mp hnd).2
          have hsid : sid ∉ regIds rest := (List.nodup_cons.mp hnd).1
          have hfresh : sid ∉ R := hdisj sid (by simp [regIds])
          refine ih (applyOp st (Op.register sid)) (sid :: R)
            (invR_register h hfresh) hnd' ?_
          intro x hx
          simp only [List.mem_cons]
          push_neg
          exact ⟨fun he => hsid (he ▸ hx), hdisj x (by simp [regIds, hx])⟩
      | addToRoom sid r hf =>
          exact ih _ R (invR_addToRoom h sid r hf) hnd hdisj
      | removeFromRoom sid r =>
          exact ih _ R (invR_removeFromRoom h sid (some r)) hnd hdisj
      | removeSock sid =>
          exact ih _ R (invR_removeSock h sid) hnd hdisj

/-! ## Helper lemmas for the claim theorems -/

/-- Which events are delivered to room members other than the acting socket
(broadcasts), as opposed to events addressed to the acting socket alone. -/
def Event.audienceOthers : Event → Bool
  | Event.userJoined .. => true
  | Event.userReconnected .. => true
  | Event.reconnectGrace .. => true
  | Event.userLeft .. => true
  | Event.hostPromoted .. => true
  | Event.roomEnded .. => true
  | _ => false

theorem relaySignal_fst (st : ServerState) (sid : String) (user : UserData)
    (target : Int ⊕ String) (payload : String)
    (mk : String → Option Int → String → String → Event) :
    (relaySignal st sid user target payload mk).1 = st := by
  unfold relaySignal
  repeat' split
  all_goals rfl

theorem relaySignal_mem (st : ServerState) (sid : String) (user : UserData)
    (target : Int ⊕ String) (payload : String)
    (mk : String → Option Int → String → String → Event) :
    ∀ e ∈ (relaySignal st sid user target payload mk).2,
      ∃ fs r t, st.store.sockets sid = some fs ∧ fs.roomId = some r ∧
        t ∈ getSocketsInRoom st.store r ∧ matchesTarget t target = true ∧
        e = mk t.socketId user.id user.name payload := by
  intro e he
  unfold relaySignal at he
  rcases hs : st.store.sockets sid with _ | fs
  · simp [hs] at he
  simp only [hs] at he
  rcases hr : fs.roomId with _ | r
  · simp [hr] at he
  simp only [hr] at he
  by_cases ht : r.truthy
  case neg => simp [ht] at he
  case pos =>
  simp only [ht, Bool.not_true, Bool.false_eq_true, if_false] at he
  rcases hf : (getSocketsInRoom st.store r).find? (fun s => matchesTarget s target) with _ | t
  · simp [hf] at he
  · simp only [hf, List.mem_singleton] at he
    subst he
    refine ⟨fs, r, t, rfl, hr, List.mem_of_find?_eq_some hf, ?_, rfl⟩
    simpa using List.find?_some hf

theorem relaySignal_drop_noRoom (st : ServerState) (sid : String) (user : UserData)
    (target : Int ⊕ String) (payload : String)
    (mk : String → Option Int → String → String → Event)
    (h : st.store.sockets sid = none ∨
         ∃ fs, st.store.sockets sid = some fs ∧ fs.roomId = none) :
    (relaySignal st sid user target payload mk).2 = [] := by
  unfold relaySignal
  rcases h with h | ⟨fs, hfs, hr⟩
  · simp [h]
  · simp [hfs, hr]

theorem relaySignal_drop_noTarget (st : ServerState) (sid : String) (user : UserData)
    (target : Int ⊕ String) (payload : String)
    (mk : String → Option Int → String → String → Event)
    {fs : SocketState} {r : RoomId}
    (hfs : st.store.sockets sid = some fs) (hr : fs.roomId = some r)
    (h : ∀ t ∈ getSocketsInRoom st.store r, matchesTarget t target = false) :
    (relaySignal st sid user target payload mk).2 = [] := by
  unfold relaySignal
  simp only [hfs, hr]
  have hf : (getSocketsInRoom st.store r).find? (fun s => matchesTarget s target) = none := by
    rw [List.find?_eq_none]
    intro t ht
    simp [h t ht]
  by_cases ht : r.truthy
  · simp [ht, hf]
  · simp [ht]

theorem freshJoin_events (st : ServerState) (sid : String) (user : UserData)
    (roomId : RoomId) (isHost : Bool) :
    (freshJoin st sid user roomId isHost).2
      = [Event.roomJoined sid roomId
           ((getSocketsInRoom (addSocketToRoom st.store sid roomId isHost) roomId).map toParticipant)
           isHost,
         Event.userJoined roomId sid user.id user.name isHost]
        ++ (if 1 < ((getSocketsInRoom (addSocketToRoom st.store sid roomId isHost) roomId).map toParticipant).length
            then [Event.syncPeers sid
                   (((getSocketsInRoom (addSocketToRoom st.store sid roomId isHost) roomId).map toParticipant).filter
                     fun p => p.userId != user.id)]
            else []) := by
  by_cases h : 1 < (getSocketsInRoom (addSocketToRoom st.store sid roomId isHost) roomId).length
  · simp [freshJoin, h]
  · simp [freshJoin, h]

/-! ## Claim theorems -/

/--
C4: for two connections joining the same room at different times, only the
later joiner is instructed (via `sync-peers`) to originate offers, and the
peer list it receives never names the joiner's own identity; the members
already in the room receive only the `user-joined` announcement of the join
event, never an instruction to originate.
-/
theorem later_joiner_initiates (st : ServerState) (sid : String) (user : UserData)
    (n : Int) (isHostFromDb : Bool) (hn : n ≠ 0)
    (hp : hasPendingReconnection st user.id (Sum.inl n) = false) :
    (∀ s peers,
        Event.syncPeers s peers
            ∈ (joinRoomHandler st sid user (RoomIdInput.num n) true isHostFromDb).2 →
        s = sid ∧ ∀ p ∈ peers, p.userId ≠ user.id) ∧
    (∀ e ∈ (joinRoomHandler st sid user (RoomIdInput.num n) true isHostFromDb).2,
        e.audienceOthers = true →
        e = Event.userJoined (Sum.inl n) sid user.id user.name isHostFromDb) := by
  have hjoin : joinRoomHandler st sid user (RoomIdInput.num n) true isHostFromDb
      = freshJoin st sid user (Sum.inl n) isHostFromDb := by
    simp [joinRoomHandler, hn, hp]
  rw [hjoin, freshJoin_events]
  constructor
  · intro s peers hmem
    rcases List.mem_append.mp hmem with hmem | hmem
    · simp at hmem
    · by_cases hlen : 1 < ((getSocketsInRoom (addSocketToRoom st.store sid (Sum.inl n) isHostFromDb) (Sum.inl n)).map toParticipant).length
      · rw [if_pos hlen] at hmem
        simp only [List.mem_singleton, Event.syncPeers.injEq] at hmem
        obtain ⟨rfl, rfl⟩ := hmem
        refine ⟨rfl, ?_⟩
        intro p hp' heq
        have h2 := (List.mem_filter.mp hp').2
        rw [heq] at h2
        simp at h2
      · rw [if_neg hlen] at hmem
        simp at hmem
  · intro e he haud
    rcases List.mem_append.mp he with he | he
    · simp only [List.mem_cons, List.mem_singleton, List.not_mem_nil, or_false] at he
      rcases he with rfl | rfl
      · simp [Event.audienceOthers] at haud
      · rfl
    · by_cases hlen : 1 < ((getSocketsInRoom (addSocketToRoom st.store sid (Sum.inl n) isHostFromDb) (Sum.inl n)).map toParticipant).length
      · rw [if_pos hlen] at he
        simp only [List.mem_singleton] at he
        subst he
        simp [Event.audienceOthers] at haud
      · rw [if_neg hlen] at he
        simp at he

def c4Store : SocketStore :=
  addSocketToRoom
    (authenticateSocket (registerSocket emptySocketStore "s1") "s1" (some 1) "Alice" none)
    "s1" (Sum.inl 4) true

def c4State : ServerState :=
  { store := authenticateSocket (registerSocket c4Store "s2") "s2" (some 2) "Bob" none,
    pending := fun _ => none,
    rooms := emptyRoomsStore }

def c4User : UserData := { id := some 2, name := "Bob", email := none, isGuest := false }

theorem later_joiner_initiates_witness :
    (∀ s peers,
        Event.syncPeers s peers
            ∈ (joinRoomHandler c4State "s2" c4User (RoomIdInput.num 4) true false).2 →
        s = "s2" ∧ ∀ p ∈ peers, p.userId ≠ c4User.id) ∧
    (∀ e ∈ (joinRoomHandler c4State "s2" c4User (RoomIdInput.num 4) true false).2,
        e.audienceOthers = true →
        e = Event.userJoined (Sum.inl 4) "s2" c4User.id c4User.name false) :=
  later_joiner_initiates c4State "s2" c4User 4 false (by decide) (by decide)

/--
C5: starting from an empty sliding-window state for one (user, room) key
with `MAX_REACTIONS = 3` and `WINDOW_MS = 10000`, admission checks at
t = 0, 2000 and 4000 are admitted, the check at t = 5000 is rejected and
records nothing, and the check at t = 10001 is admitted again because the
t = 0 event has aged out of the window.
-/
def rl1 : EmojiRateLimiter := (canReact emptyLimiter "u" 7 0).2

def rl2 : EmojiRateLimiter := (canReact rl1 "u" 7 2000).2

def rl3 : EmojiRateLimiter := (canReact rl2 "u" 7 4000).2

def rl4 : EmojiRateLimiter := (canReact rl3 "u" 7 5000).2

theorem rate_limiter_window_trace :
    (canReact emptyLimiter "u" 7 0).1 = true ∧
    (canReact rl1 "u" 7 2000).1 = true ∧
    (canReact rl2 "u" 7 4000).1 = true ∧
    (canReact rl3 "u" 7 5000).1 = false ∧
    rl4.userHistory "u" 7 = rl3.userHistory "u" 7 ∧
    (canReact rl4 "u" 7 10001).1 = true := by
  decide

/--
C6: a join attempt against a room whose membership is at or above
`maxParticipants` is rejected, leaves both the room store and the
participant store untouched, and the lifecycle routine emits no peer
notification (its result carries no events at all); the underlying
`addParticipantToRoom` likewise answers `false` without mutating.
-/
theorem room_at_capacity_join_rejected (ls : LifecycleState)
    (roomId username socketId : String) (isHost : Bool) (userId : Option Int)
    (hfull : maxParticipants ≤ getRoomParticipantCount ls.rooms roomId) :
    handleParticipantJoin ls roomId username socketId isHost userId = (ls, false) ∧
    addParticipantToRoom ls.rooms roomId username = (ls.rooms, false) := by
  have hex : roomExists ls.rooms roomId = true := by
    unfold getRoomParticipantCount at hfull
    rcases he : ls.rooms.rooms roomId with _ | room
    · rw [he] at hfull; simp [maxParticipants] at hfull
    · simp [roomExists, he]
  constructor
  · unfold handleParticipantJoin
    rw [hex]
    simp [hfull]
  · unfold addParticipantToRoom
    rcases he : ls.rooms.rooms roomId with _ | room
    · rfl
    · unfold getRoomParticipantCount at hfull
      rw [he] at hfull
      simp [hfull]

def c6FullRoom : RoomRec :=
  { id := "77", title := "Meeting", createdBy := "u0",
    participants := (List.range maxParticipants).map (fun i => "u" ++ toString i),
    isActive := true }

def c6State : LifecycleState :=
  { rooms := { rooms := fset (fun _ => none) "77" (some c6FullRoom) },
    parts := emptyParticipantsStore }

theorem room_at_capacity_join_rejected_witness :
    maxParticipants ≤ getRoomParticipantCount c6State.rooms "77" ∧
    handleParticipantJoin c6State "77" "newcomer" "s99" false none = (c6State, false) :=
  ⟨by decide,
   (room_at_capacity_join_rejected c6State "77" "newcomer" "s99" false none (by decide)).1⟩

/--
C8: a relayed signaling envelope (offer, answer or ICE candidate) never
mutates the server state; every delivered event goes to a live session of
the sender's current room that matches the requested target, with the
payload forwarded verbatim; a sender that is in no room, and a target that
is not in the sender's room, both make the handler emit nothing at all —
in particular no user-facing error event.
-/
theorem signaling_relay_behavior (st : ServerState) (sid : String) (user : UserData)
    (target : Int ⊕ String) (payload : String) :
    ((offerHandler st sid user target payload).1 = st ∧
     (answerHandler st sid user target payload).1 = st ∧
     (iceHandler st sid user target payload).1 = st) ∧
    (∀ e ∈ (offerHandler st sid user target payload).2,
        ∃ fs r t, st.store.sockets sid = some fs ∧ fs.roomId = some r ∧
          t ∈ getSocketsInRoom st.store r ∧ matchesTarget t target = true ∧
          e = Event.offerForward t.socketId user.id user.name payload) ∧
    (∀ e ∈ (answerHandler st sid user target payload).2,
        ∃ fs r t, st.store.sockets sid = some fs ∧ fs.roomId = some r ∧
          t ∈ getSocketsInRoom st.store r ∧ matchesTarget t target = true ∧
          e = Event.answerForward t.socketId user.id user.name payload) ∧
    (∀ e ∈ (iceHandler st sid user target payload).2,
        ∃ fs r t, st.store.sockets sid = some fs ∧ fs.roomId = some r ∧
          t ∈ getSocketsInRoom st.store r ∧ matchesTarget t target = true ∧
          e = Event.iceForward t.socketId user.id user.name payload) ∧
    ((st.store.sockets sid = none ∨
        (∃ fs, st.store.sockets sid = some fs ∧ fs.roomId = none)) →
      (offerHandler st sid user target payload).2 = [] ∧
      (answerHandler st sid user target payload).2 = [] ∧
      (iceHandler st sid user target payload).2 = []) ∧
    (∀ fs r, st.store.sockets sid = some fs → fs.roomId = some r →
      (∀ t ∈ getSocketsInRoom st.store r, matchesTarget t target = false) →
      (offerHandler st sid user target payload).2 = [] ∧
      (answerHandler st sid user target payload).2 = [] ∧
      (iceHandler st sid user target payload).2 = []) := by
  refine ⟨⟨?_, ?_, ?_⟩, ?_, ?_, ?_, ?_, ?_⟩
  · exact relaySignal_fst st sid user target payload Event.offerForward
  · exact relaySignal_fst st sid user target payload Event.answerForward
  · exact relaySignal_fst st sid user target payload Event.iceForward
  · exact relaySignal_mem st sid user target payload Event.offerForward
  · exact relaySignal_mem st sid user target payload Event.answerForward
  · exact relaySignal_mem st sid user target payload Event.iceForward
  · intro h
    exact ⟨relaySignal_drop_noRoom st sid user target payload Event.offerForward h,
           relaySignal_drop_noRoom st sid user target payload Event.answerForward h,
           relaySignal_drop_noRoom st sid user target payload Event.iceForward h⟩
  · intro fs r hfs hr h
    exact ⟨relaySignal_drop_noTarget st sid user target payload Event.offerForward hfs hr h,
           relaySignal_drop_noTarget st sid user target payload Event.answerForward hfs hr h,
           relaySignal_drop_noTarget st sid user target payload Event.iceForward hfs hr h⟩

def c8Store : SocketStore :=
  addSocketToRoom
    (addSocketToRoom
      (authenticateSocket
        (authenticateSocket
          (registerSocket (registerSocket emptySocketStore "s1") "s2")
          "s1" (some 1) "Alice" none)
        "s2" (some 2) "Bob" none)
      "s1" (Sum.inl 6) true)
    "s2" (Sum.inl 6) false

def c8State : ServerState :=
  { store := c8Store, pending := fun _ => none, rooms := emptyRoomsStore }

def c8User : UserData := { id := some 1, name := "Alice", email := none, isGuest := false }

theorem signaling_relay_behavior_witness :
    (offerHandler c8State "s1" c8User (Sum.inl 2) "sdp-offer-blob").1 = c8State ∧
    (offerHandler c8State "s1" c8User (Sum.inl 2) "sdp-offer-blob").2
      = [Event.offerForward "s2" (some 1) "Alice" "sdp-offer-blob"] ∧
    (∀ e ∈ (offerHandler c8State "s1" c8User (Sum.inl 2) "sdp-offer-blob").2,
        ∃ fs r t, c8State.store.sockets "s1" = some fs ∧ fs.roomId = some r ∧
          t ∈ getSocketsInRoom c8State.store r ∧ matchesTarget t (Sum.inl 2) = true ∧
          e = Event.offerForward t.socketId c8User.id c8User.name "sdp-offer-blob") :=
  ⟨(signaling_relay_behavior c8State "s1" c8User (Sum.inl 2) "sdp-offer-blob").1.1,
   by decide,
   (signaling_relay_behavior c8State "s1" c8User (Sum.inl 2) "sdp-offer-blob").2.1⟩

/--
C10: a `join-room` request whose `roomId` string does not parse as a
decimal number (for example a room code of the form `"abc-def-ghi"`) is
answered with an `INVALID_ROOM_ID` error and no state change — even when
the in-memory room store holds a room under exactly that string key, so
rooms addressed by code cannot be reached through this event.
-/
theorem non_numeric_room_id_join_rejected (st : ServerState) (sid : String)
    (user : UserData) (s : String) (accessValid isHostFromDb : Bool)
    (h : jsParseInt s = none) :
    joinRoomHandler st sid user (RoomIdInput.str s) accessValid isHostFromDb
      = (st, [Event.errorEvt sid "INVALID_ROOM_ID"]) := by
  simp [joinRoomHandler, h]

def c10Room : RoomRec :=
  { id := "abc-def-ghi", title := "Standup", createdBy := "alice",
    participants := ["alice"], isActive := true }

def c10State : ServerState :=
  { store := emptySocketStore, pending := fun _ => none,
    rooms := { rooms := fset (fun _ => none) "abc-def-ghi" (some c10Room) } }

def c10User : UserData := { id := some 1, name := "Alice", email := none, isGuest := false }

theorem non_numeric_room_id_join_rejected_witness :
    jsParseInt "abc-def-ghi" = none ∧
    roomExists c10State.rooms "abc-def-ghi" = true ∧
    joinRoomHandler c10State "s1" c10User (RoomIdInput.str "abc-def-ghi") true false
      = (c10State, [Event.errorEvt "s1" "INVALID_ROOM_ID"]) :=
  ⟨by decide, by decide,
   non_numeric_room_id_join_rejected c10State "s1" c10User "abc-def-ghi" true false
     (by decide)⟩

def c1Store : SocketStore :=
  addSocketToRoom
    (addSocketToRoom
      (authenticateSocket
        (authenticateSocket
          (registerSocket (registerSocket emptySocketStore "s1") "s2")
          "s1" (some 1) "Alice" none)
        "s2" (some 2) "Bob" none)
      "s1" (Sum.inl 7) true)
    "s2" (Sum.inl 7) false

def c1State : ServerState :=
  { store := c1Store, pending := fun _ => none, rooms := emptyRoomsStore }

/--
C1 (refuting the claim as stated): when the member "s2" of room 7
disconnects while "s1" remains, the disconnect handler removes "s2" from
the room-membership index immediately, creates no pending-reconnection
record for it, and emits nothing — because `removeSocket` hands the handler
the session object after `removeSocketFromRoom` has already reset its
`roomId`, the soft-reconnect branch guarded by `removedState.roomId` is
unreachable.
-/
theorem disconnect_tears_down_membership_immediately :
    c1State.store.roomToSockets (Sum.inl 7) = ["s1", "s2"] ∧
    (disconnectHandler c1State "s2").1.store.roomToSockets (Sum.inl 7) = ["s1"] ∧
    (disconnectHandler c1State "s2").1.store.sockets "s2" = none ∧
    (disconnectHandler c1State "s2").1.pending (pendingKey (Sum.inl 7) (some 2)) = none ∧
    (disconnectHandler c1State "s2").2 = [] := by
  decide

def c2Store : SocketStore :=
  addSocketToRoom
    (addSocketToRoom
      (authenticateSocket
        (authenticateSocket
          (registerSocket (registerSocket emptySocketStore "s1") "s2")
          "s1" (some 1) "Alice" none)
        "s2" (some 2) "Bob" none)
      "s1" (Sum.inl 5) true)
    "s2" (Sum.inl 5) false

def c2State : ServerState :=
  { store := c2Store, pending := fun _ => none, rooms := emptyRoomsStore }

def c2AfterDisc : ServerState := (disconnectHandler c2State "s1").1

def c2Rejoin : ServerState :=
  { c2AfterDisc with
    store := authenticateSocket (registerSocket c2AfterDisc.store "s3") "s3"
               (some 1) "Alice" none }

def c2User : UserData := { id := some 1, name := "Alice", email := none, isGuest := false }

def c2Pend : ServerState :=
  { c2Rejoin with
    pending := fset c2Rejoin.pending (pendingKey (Sum.inl 5) (some 1))
      (some { userId := some 1, userName := some "Alice", email := none,
              roomId := Sum.inl 5 }) }

/--
C2 (refuting the claim as stated): the host "s1" (user 1) of room 5
disconnects and rejoins within the grace window as socket "s3".  (a) The
disconnect leaves no pending-reconnection record, so the rejoin cannot take
the restore path; (b) the rejoin is therefore processed as a fresh join,
which broadcasts a `user-joined` announcement to the room; (c) even when a
pending record is present, `attemptReconnect` re-adds the socket with
`isHost = false`, despite its own "Preserve host status in state" comment.
-/
theorem host_grace_restore_fails :
    hasPendingReconnection c2AfterDisc (some 1) (Sum.inl 5) = false ∧
    Event.userJoined (Sum.inl 5) "s3" (some 1) "Alice" true
        ∈ (joinRoomHandler c2Rejoin "s3" c2User (RoomIdInput.num 5) true true).2 ∧
    (attemptReconnect c2Pend "s3" (some 1) (Sum.inl 5) "Alice").1.store.sockets "s3"
      = some { socketId := "s3", userId := some 1, guestId := none,
               userName := some "Alice", email := none, roomId := some (Sum.inl 5),
               isHost := false, isGuest := false, isAuthenticated := true } := by
  decide

def c3Pending : PendingRec :=
  { userId := some 1, userName := some "Alice", email := none, roomId := Sum.inl 9 }

def c3Store : SocketStore :=
  addSocketToRoom
    (authenticateSocket (registerSocket emptySocketStore "s2") "s2" (some 2) "Bob" none)
    "s2" (Sum.inl 9) false

def c3State : ServerState :=
  { store := c3Store,
    pending := fset (fun _ => none) (pendingKey (Sum.inl 9) (some 1)) (some c3Pending),
    rooms := emptyRoomsStore }

/-- Whether an event is a `host-promoted` emission. -/
def Event.isHostPromoted : Event → Bool
  | Event.hostPromoted .. => true
  | _ => false

/--
C3 (counterexample): a pending-reconnection record of the disconnected host
(user 1) of room 9 expires while the member "s2" remains in the room, yet
the expiry emits zero `host-promoted` events — the claim's "exactly one
hostPromoted event naming the earliest-joined remaining member" is false.
-/
theorem expiry_emits_no_host_promotion :
    (getSocketsInRoom c3State.store (Sum.inl 9)).length = 1 ∧
    ((handleReconnectTimeout c3State (pendingKey (Sum.inl 9) (some 1)) (Sum.inl 9)).2.countP
        Event.isHostPromoted) = 0 := by
  decide

/--
C3 (amended): when a pending-reconnection record expires, the record is
deleted and exactly one `user-left` event for its identity is emitted; no
`host-promoted` event is emitted regardless of remaining members; the timer
fires effectively once (a second firing is a no-op); and a reconnect
attempt arriving after expiry finds no record, so it falls through to the
ordinary fresh-join path instead of a restore.
-/
theorem grace_expiry_behavior (st : ServerState) (uid : Option Int) (roomId : RoomId)
    (rec0 : PendingRec) (h : st.pending (pendingKey roomId uid) = some rec0) :
    (handleReconnectTimeout st (pendingKey roomId uid) roomId).2
      = [Event.userLeft roomId rec0.userId rec0.userName] ∧
    ((handleReconnectTimeout st (pendingKey roomId uid) roomId).2.countP
        Event.isHostPromoted) = 0 ∧
    (handleReconnectTimeout st (pendingKey roomId uid) roomId).1.pending
        (pendingKey roomId uid) = none ∧
    handleReconnectTimeout (handleReconnectTimeout st (pendingKey roomId uid) roomId).1
        (pendingKey roomId uid) roomId
      = ((handleReconnectTimeout st (pendingKey roomId uid) roomId).1, []) ∧
    hasPendingReconnection (handleReconnectTimeout st (pendingKey roomId uid) roomId).1
        uid roomId = false ∧
    (∀ sid userName,
        attemptReconnect (handleReconnectTimeout st (pendingKey roomId uid) roomId).1
            sid uid roomId userName
          = ((handleReconnectTimeout st (pendingKey roomId uid) roomId).1, [], false)) := by
  refine ⟨?_, ?_, ?_, ?_, ?_, ?_⟩
  · simp [handleReconnectTimeout, h]
  · simp [handleReconnectTimeout, h, List.countP, List.countP.go, Event.isHostPromoted]
  · simp [handleReconnectTimeout, h]
  · simp [handleReconnectTimeout, h]
  · simp [hasPendingReconnection, handleReconnectTimeout, h]
  · intro sid userName
    simp [attemptReconnect, handleReconnectTimeout, h]

def c3wState : ServerState :=
  { store := emptySocketStore,
    pending := fset (fun _ => none) (pendingKey (Sum.inl 11) (some 4))
      (some { userId := some 4, userName := some "Dana", email := none,
              roomId := Sum.inl 11 }),
    rooms := emptyRoomsStore }

theorem grace_expiry_behavior_witness :
    (handleReconnectTimeout c3wState (pendingKey (Sum.inl 11) (some 4)) (Sum.inl 11)).2
      = [Event.userLeft (Sum.inl 11) (some 4) (some "Dana")] ∧
    hasPendingReconnection
        (handleReconnectTimeout c3wState (pendingKey (Sum.inl 11) (some 4)) (Sum.inl 11)).1
        (some 4) (Sum.inl 11) = false :=
  have h := grace_expiry_behavior c3wState (some 4) (Sum.inl 11)
    { userId := some 4, userName := some "Dana", email := none, roomId := Sum.inl 11 }
    (by decide)
  ⟨h.1, h.2.2.2.2.1⟩

def c7Store : SocketStore :=
  addSocketToRoom
    (addSocketToRoom
      (authenticateSocket
        (authenticateSocket
          (registerSocket (registerSocket emptySocketStore "s1") "s2")
          "s1" (some 1) "Alice" none)
        "s2" (some 2) "Bob" none)
      "s1" (Sum.inl 3) true)
    "s2" (Sum.inl 3) false

def c7State : ServerState :=
  { store := c7Store, pending := fun _ => none, rooms := emptyRoomsStore }

def c7SoloStore : SocketStore :=
  addSocketToRoom
    (authenticateSocket (registerSocket emptySocketStore "s1") "s1" (some 1) "Alice" none)
    "s1" (Sum.inl 3) true

def c7SoloState : ServerState :=
  { store := c7SoloStore, pending := fun _ => none, rooms := emptyRoomsStore }

def c7User : UserData := { id := some 1, name := "Alice", email := none, isGuest := false }

/--
C7 (at the failing input): the host "s1" (user 1, earliest joiner) of room 3
leaves explicitly while "s2" (user 2) remains.  Because the handler calls
`removeSocketFromRoom(socket.id)` without the required `roomId` argument,
the leaver stays in the membership index, and the single `host-promoted`
event names the departing host itself instead of the earliest-joined
remaining member; a sole host's leave likewise promotes the leaver instead
of ending the room.
-/
theorem host_leave_promotes_departing_host :
    (leaveRoomHandler c7State "s1" c7User (Sum.inl 3)).1.store.roomToSockets (Sum.inl 3)
      = ["s1", "s2"] ∧
    (leaveRoomHandler c7State "s1" c7User (Sum.inl 3)).2
      = [Event.hostPromoted (Sum.inl 3) (some 1) (some "Alice")] ∧
    (leaveRoomHandler c7SoloState "s1" c7User (Sum.inl 3)).2
      = [Event.hostPromoted (Sum.inl 3) (some 1) (some "Alice")] := by
  decide

def c9CexOps : List Op :=
  [Op.register "a", Op.addToRoom "a" (Sum.inl 1) false, Op.register "a"]

/--
C9 (counterexample): the claim quantifies over every sequence of
register / add-to-room / remove-from-room / remove-socket operations, but
re-registering a connection id that is already in a room resets its session
(`roomId = null`) without touching the room-membership index, leaving the
id listed in room 1 while its session claims no room.
-/
theorem reregister_breaks_index_consistency :
    ¬ IndexConsistent (runOps emptySocketStore c9CexOps) := by
  intro h
  have hs : (runOps emptySocketStore c9CexOps).sockets "a" = some (freshSession "a") := by
    decide
  have hm : "a" ∈ (runOps emptySocketStore c9CexOps).roomToSockets (Sum.inl 1) := by
    decide
  have h2 := (h.1 "a" (freshSession "a") hs (Sum.inl 1)).mpr hm
  exact absurd h2 (by decide)

/--
C9 (amended): for every operation sequence in which `register` is only
applied to fresh connection ids (as holds for transport-generated socket
ids), the connection-session index and the room-membership index stay
mutually consistent: a session's `roomId` is `r` exactly when its id is
listed in room `r`, and a session is listed in at most one room.
-/
theorem fresh_register_traces_keep_indices_consistent (ops : List Op)
    (h : (regIds ops).Nodup) : IndexConsistent (runOps emptySocketStore ops) := by
  obtain ⟨R', hInv⟩ :=
    invR_runOps ops emptySocketStore [] (invR_empty []) h (by simp)
  exact indexConsistent_of_storeInv hInv.1

theorem fresh_register_traces_keep_indices_consistent_witness :
    IndexConsistent (runOps emptySocketStore
      [Op.register "a", Op.register "b", Op.addToRoom "a" (Sum.inl 1) true,
       Op.addToRoom "b" (Sum.inl 1) false, Op.removeFromRoom "a" (Sum.inl 1),
       Op.removeSock "b"]) :=
  fresh_register_traces_keep_indices_consistent
    [Op.register "a", Op.register "b", Op.addToRoom "a" (Sum.inl 1) true,
     Op.addToRoom "b" (Sum.inl 1) false, Op.removeFromRoom "a" (Sum.inl 1),
     Op.removeSock "b"]
    (by decide)

end MeetCore
